import Mathlib

/-!
# RIOT `core/lib/include/assert.h`

A shallow embedding of the assertion header of RIOT.

The header is a set of preprocessor conditionals that select one replacement
list for `assert(cond)` (and one for `static_assert`).  The embedding keeps the
three layers of the C translation apart:

* the set of names the build defines (`Defines`) and the `#ifdef` chain that
  picks a branch of the header (`buildConfiguration`, `staticAssertVariant`);
* the replacement lists themselves, as small expression trees
  (`assertReplacement`, `expandStaticAssert`), rescanned at the call site
  (`rescan`);
* the evaluation of the expanded expression on a machine with program state and
  an event trace (`eval`), respectively the translation of the expanded
  declaration at the place where it is written (`translate`, `static_assert`).
-/

namespace RiotAssert

/-! ## Preprocessor state -/

/-- Names the build defines before `assert.h` is included.  A `Bool` field says
whether the name is defined; `STDC_VERSION` is the value of `__STDC_VERSION__`
(`0` when the name is not defined, as in a `#if` expression);
`RIOT_FILE_RELATIVE` is `some s` when the build defines it as the string
literal `s`. -/
structure Defines where
  DOXYGEN : Bool
  NDEBUG : Bool
  DEBUG_ASSERT_VERBOSE : Bool
  RIOT_FILE_RELATIVE : Option String
  cplusplus : Bool
  STDC_VERSION : Nat
deriving DecidableEq, Repr

/-- Lines 29-45: `#ifdef DOXYGEN` / `#define DEBUG_ASSERT_VERBOSE` / `#endif`. -/
def doxygenBlock (d : Defines) : Defines :=
  if d.DOXYGEN then { d with DEBUG_ASSERT_VERBOSE := true } else d

/-- The three branches of the conditional at lines 68-121. -/
inductive BuildConfiguration where
  | Disabled
  | MinimalReport
  | VerboseReport
deriving DecidableEq, Repr

/-- Lines 68, 70 and 118: `#ifdef NDEBUG` ... `#elif defined(DEBUG_ASSERT_VERBOSE)`
... `#else`, read on the definitions in force after lines 29-45. -/
def buildConfiguration (d : Defines) : BuildConfiguration :=
  if (doxygenBlock d).NDEBUG then BuildConfiguration.Disabled
  else if (doxygenBlock d).DEBUG_ASSERT_VERBOSE then BuildConfiguration.VerboseReport
  else BuildConfiguration.MinimalReport

/-! ## Expressions of the replacement lists -/

/-- The two fault reporters the header declares. -/
inductive Fn where
  | _assert_failure
  | _assert_panic
deriving DecidableEq, Repr

/-- Names a replacement list of the header refers to and that are replaced at
the call site. -/
inductive Ident where
  | RIOT_FILE_RELATIVE
  | __FILE__
  | __LINE__
deriving DecidableEq, Repr

/-- Expression trees large enough for the replacement lists of `assert`. -/
inductive CExpr where
  | param : CExpr
  | voidZero : CExpr
  | ident : Ident → CExpr
  | strLit : String → CExpr
  | intLit : Nat → CExpr
  | ternary : CExpr → CExpr → CExpr → CExpr
  | call0 : Fn → CExpr
  | call2 : Fn → CExpr → CExpr → CExpr
deriving DecidableEq, Repr

/-- Parameter types of the declared reporters. -/
inductive CType where
  | constCharPtr
  | unsigned
deriving DecidableEq, Repr

/-- A function declaration of the header: `__NORETURN void fn(params);`.
`__NORETURN` (lines 60-66) is an attribute for the compiler and empty outside
GCC; that the reporters do not return is a property of their bodies. -/
structure Prototype where
  fn : Fn
  params : List CType
  noreturn : Bool
deriving DecidableEq, Repr

/-- Function declarations each branch of lines 68-121 contributes
(line 81 in the verbose branch, line 119 in the `#else` branch, none under
`NDEBUG`). -/
def declarations : BuildConfiguration → List Prototype
  | BuildConfiguration.Disabled => []
  | BuildConfiguration.VerboseReport =>
      [⟨Fn._assert_failure, [CType.constCharPtr, CType.unsigned], true⟩]
  | BuildConfiguration.MinimalReport => [⟨Fn._assert_panic, [], true⟩]

/-- Replacement list of `assert` in each branch:
line 69 `((void)0)`,
lines 116-117 `((cond) ? (void)0 : _assert_failure(RIOT_FILE_RELATIVE, __LINE__))`,
line 120 `((cond) ? (void)0 : _assert_panic())`. -/
def assertReplacement : BuildConfiguration → CExpr
  | BuildConfiguration.Disabled => CExpr.voidZero
  | BuildConfiguration.VerboseReport =>
      CExpr.ternary CExpr.param CExpr.voidZero
        (CExpr.call2 Fn._assert_failure (CExpr.ident Ident.RIOT_FILE_RELATIVE)
          (CExpr.ident Ident.__LINE__))
  | BuildConfiguration.MinimalReport =>
      CExpr.ternary CExpr.param CExpr.voidZero (CExpr.call0 Fn._assert_panic)

/-- Reporters an expression calls, in source order. -/
def CExpr.calls : CExpr → List Fn
  | CExpr.ternary c t e => c.calls ++ t.calls ++ e.calls
  | CExpr.call0 f => [f]
  | CExpr.call2 f a b => f :: (a.calls ++ b.calls)
  | _ => []

/-- Number of occurrences of the parameter in a replacement list. -/
def CExpr.paramCount : CExpr → Nat
  | CExpr.param => 1
  | CExpr.ternary c t e => c.paramCount + t.paramCount + e.paramCount
  | CExpr.call2 _ a b => a.paramCount + b.paramCount
  | _ => 0

/-! ## Call sites and rescanning -/

/-- Where an `assert(cond)` stands: the values of `__FILE__`, `__LINE__` and
`__func__` there.  `__LINE__` is a decimal `int` constant, at most 2147483647. -/
structure CallSite where
  file : String
  line : Nat
  func : String
  line_le : line ≤ 2147483647

/-- Lines 47-49: `RIOT_FILE_RELATIVE` is the build's string when the build
defines the name, `(__FILE__)` otherwise. -/
def fileField (d : Defines) (site : CallSite) : String :=
  match d.RIOT_FILE_RELATIVE with
  | some s => s
  | none => site.file

/-- Replacement of the names of a replacement list at a call site. -/
def rescanIdent (d : Defines) (site : CallSite) : Ident → CExpr
  | Ident.RIOT_FILE_RELATIVE => CExpr.strLit (fileField d site)
  | Ident.__FILE__ => CExpr.strLit site.file
  | Ident.__LINE__ => CExpr.intLit site.line

/-- Rescan of a replacement list at a call site. -/
def rescan (d : Defines) (site : CallSite) : CExpr → CExpr
  | CExpr.ident i => rescanIdent d site i
  | CExpr.ternary c t e => CExpr.ternary (rescan d site c) (rescan d site t) (rescan d site e)
  | CExpr.call2 f a b => CExpr.call2 f (rescan d site a) (rescan d site b)
  | e => e

/-! ## Machine -/

/-- Values of the expressions above. -/
inductive Val where
  | void
  | int (n : Int)
  | str (s : String)
deriving DecidableEq, Repr

/-- Modelled from the spec: the global state machine of section 4.3
(`Armed`, `Faulted`, `Halted`); the header has no such variable. -/
inductive Status where
  | Armed
  | Faulted
  | Halted
deriving DecidableEq, Repr

/-- What an observer of a run sees, oldest first. -/
inductive Event where
  | condEvaluated
  | effect (tag : Nat)
  | call (f : Fn) (args : List Val)
deriving DecidableEq, Repr

/-- Program state `user` (whatever the condition expression reads and writes),
the status of the subsystem and the trace of events so far. -/
structure Machine (σ : Type) where
  user : σ
  status : Status
  trace : List Event

/-- Result of evaluating a condition expression on a program state: its value,
the program state it leaves, and the observable effects it performed. -/
structure CondResult (σ : Type) where
  value : Int
  post : σ
  effects : List Nat

/-- The argument of `assert`: a C expression of scalar type that yields a value,
given by its meaning on the program state. -/
abbrev CondExpr (σ : Type) := σ → CondResult σ

/-- How the evaluation of an expression ends: with a value and control back at
the caller, without ever returning, or not at all (ill-formed expression). -/
inductive Outcome (σ : Type) where
  | returned (v : Val) (m : Machine σ)
  | noReturn (m : Machine σ)
  | stuck

/-- Scalar truth of a controlling expression; `void` has none. -/
def Val.truth : Val → Option Bool
  | Val.void => none
  | Val.int n => some (decide (n ≠ 0))
  | Val.str _ => some true

/-- Conversion of an argument to the declared parameter type.  `unsigned` has
32 bits on the Cortex-M4 of `cpu/k60`. -/
def convertArg : CType → Val → Option Val
  | CType.constCharPtr, Val.str s => some (Val.str s)
  | CType.unsigned, Val.int n => some (Val.int (n % 2 ^ 32))
  | _, _ => none

/-- Modelled from the spec: the Fatal Terminator (`core_panic`, not declared in
`assert.h`): it stops the machine for good. -/
def core_panic {σ : Type} (m : Machine σ) : Machine σ :=
  { m with status := Status.Halted }

/-- Modelled from the spec: the bodies of `_assert_failure` and `_assert_panic`
(only their `__NORETURN` declarations are in `assert.h`): the failed check
takes the subsystem from `Armed` to `Faulted`, the reporter completes by
invoking the Fatal Terminator, and nothing returns. -/
def faultReporter {σ : Type} (m : Machine σ) : Machine σ :=
  core_panic { m with status := Status.Faulted }

/-- The trace entry of a call. -/
def recordCall {σ : Type} (f : Fn) (args : List Val) (m : Machine σ) : Machine σ :=
  { m with trace := m.trace ++ [Event.call f args] }

/-- Call of a reporter with converted arguments: the call is recorded, then the
reporter runs and does not return. -/
def invoke {σ : Type} (f : Fn) (args : List Val) (m : Machine σ) : Outcome σ :=
  Outcome.noReturn (faultReporter (recordCall f args m))

/-- Evaluation of the macro argument: the program state moves on, the
evaluation and the effects of the expression are recorded. -/
def evalArgument {σ : Type} (cond : CondExpr σ) (m : Machine σ) : Machine σ :=
  { m with
    user := (cond m.user).post
    trace := m.trace ++ Event.condEvaluated :: (cond m.user).effects.map Event.effect }

/-- Evaluation of an expanded replacement list.  `decls` are the declarations
in scope, `cond` is the macro argument standing for `param`. -/
def eval {σ : Type} (decls : List Prototype) (cond : CondExpr σ) :
    CExpr → Machine σ → Outcome σ
  | CExpr.param, m =>
      Outcome.returned (Val.int (cond m.user).value) (evalArgument cond m)
  | CExpr.voidZero, m => Outcome.returned Val.void m
  | CExpr.ident _, _ => Outcome.stuck
  | CExpr.strLit s, m => Outcome.returned (Val.str s) m
  | CExpr.intLit n, m => Outcome.returned (Val.int n) m
  | CExpr.ternary c t e, m =>
      match eval decls cond c m with
      | Outcome.returned v m1 =>
          match v.truth with
          | some true => eval decls cond t m1
          | some false => eval decls cond e m1
          | none => Outcome.stuck
      | Outcome.noReturn m1 => Outcome.noReturn m1
      | Outcome.stuck => Outcome.stuck
  | CExpr.call0 f, m =>
      match decls.find? (fun p => p.fn == f) with
      | some p => if p.params = [] then invoke f [] m else Outcome.stuck
      | none => Outcome.stuck
  | CExpr.call2 f a b, m =>
      match decls.find? (fun p => p.fn == f) with
      | some p =>
          match p.params with
          | [ta, tb] =>
              match eval decls cond a m with
              | Outcome.returned va m1 =>
                  match eval decls cond b m1 with
                  | Outcome.returned vb m2 =>
                      match convertArg ta va, convertArg tb vb with
                      | some xa, some xb => invoke f [xa, xb] m2
                      | _, _ => Outcome.stuck
                  | Outcome.noReturn m2 => Outcome.noReturn m2
                  | Outcome.stuck => Outcome.stuck
              | Outcome.noReturn m1 => Outcome.noReturn m1
              | Outcome.stuck => Outcome.stuck
          | _ => Outcome.stuck
      | none => Outcome.stuck

/-- The statement `assert(cond);` at `site` in a translation unit built with
`d`: branch selection, expansion, rescan, evaluation. -/
def assert {σ : Type} (d : Defines) (site : CallSite) (cond : CondExpr σ)
    (m : Machine σ) : Outcome σ :=
  eval (declarations (buildConfiguration d)) cond
    (rescan d site (assertReplacement (buildConfiguration d))) m

/-- Sequencing: the code `k` after a statement runs only when the statement
returns. -/
def Outcome.andThen {σ : Type} (o : Outcome σ) (k : Machine σ → Outcome σ) : Outcome σ :=
  match o with
  | Outcome.returned _ m => k m
  | Outcome.noReturn m => Outcome.noReturn m
  | Outcome.stuck => Outcome.stuck

/-- The machine an evaluation ends in, when it ends. -/
def Outcome.final {σ : Type} : Outcome σ → Option (Machine σ)
  | Outcome.returned _ m => some m
  | Outcome.noReturn m => some m
  | Outcome.stuck => none

/-- Reporter calls of a trace, in order. -/
def reporterCalls : List Event → List (Fn × List Val)
  | [] => []
  | Event.call f args :: es => (f, args) :: reporterCalls es
  | _ :: es => reporterCalls es

/-- Number of evaluations of the macro argument a trace records. -/
def evaluations : List Event → Nat
  | [] => 0
  | Event.condEvaluated :: es => evaluations es + 1
  | _ :: es => evaluations es

/-! ## `static_assert` -/

/-- Integer constant expressions of type `int` (32 bits on the Cortex-M4 of
`cpu/k60`), as far as the header and the examples need them: decimal constants
up to 2147483647, unary `-`, binary `-`, `/`, `==` and `!`. -/
inductive ConstExpr where
  | lit : Fin 2147483648 → ConstExpr
  | neg : ConstExpr → ConstExpr
  | sub : ConstExpr → ConstExpr → ConstExpr
  | div : ConstExpr → ConstExpr → ConstExpr
  | eq : ConstExpr → ConstExpr → ConstExpr
  | lnot : ConstExpr → ConstExpr
deriving DecidableEq, Repr

/-- Two's complement wrap of a mathematical result into the range of `int`. -/
def wrapInt (n : Int) : Int :=
  (n + 2147483648) % 4294967296 - 2147483648

/-- Result of an arithmetic operation of type `int`.  A result outside the
range of `int` is no integer constant expression for a translator that turns
the diagnostics ISO C asks for into errors (`pedantic`); otherwise it is
folded to the wrapped value, with a warning. -/
def intResult (pedantic : Bool) (n : Int) : Option Int :=
  if -2147483648 ≤ n ∧ n ≤ 2147483647 then some n
  else if pedantic then none
  else some (wrapInt n)

/-- Value of a constant expression during translation; `none` when it has none
(division by zero, overflow under `pedantic`).  `/` truncates toward zero. -/
def ConstExpr.value (pedantic : Bool) : ConstExpr → Option Int
  | ConstExpr.lit n => some (n.val : Int)
  | ConstExpr.neg a =>
      match a.value pedantic with
      | some x => intResult pedantic (-x)
      | none => none
  | ConstExpr.sub a b =>
      match a.value pedantic, b.value pedantic with
      | some x, some y => intResult pedantic (x - y)
      | _, _ => none
  | ConstExpr.div a b =>
      match a.value pedantic, b.value pedantic with
      | some x, some y => if y = 0 then none else intResult pedantic (Int.tdiv x y)
      | _, _ => none
  | ConstExpr.eq a b =>
      match a.value pedantic, b.value pedantic with
      | some x, some y => some (if x = y then 1 else 0)
      | _, _ => none
  | ConstExpr.lnot a =>
      match a.value pedantic with
      | some x => some (if x = 0 then 1 else 0)
      | none => none

/-- A build with neither `NDEBUG` nor `DEBUG_ASSERT_VERBOSE`, C11. -/
def minimalBuild : Defines := ⟨false, false, false, none, false, 201112⟩

/-- A build with `-DDEBUG_ASSERT_VERBOSE`, C11. -/
def verboseBuild : Defines := ⟨false, false, true, none, false, 201112⟩

/-- A build with `-DNDEBUG -DDEBUG_ASSERT_VERBOSE`, C99. -/
def disabledBuild : Defines := ⟨false, true, true, none, false, 199901⟩

/-- A verbose build that defines `RIOT_FILE_RELATIVE` as the string `core/x.c`. -/
def relativeBuild : Defines := ⟨false, false, true, some "core/x.c", false, 201112⟩

/-- Line 42 of `x.c`, inside `main`. -/
def siteX42 : CallSite := ⟨"x.c", 42, "main", by decide⟩

/-- Line 7 of `y.c`, inside `init`. -/
def siteY7 : CallSite := ⟨"y.c", 7, "init", by decide⟩

/-- The condition `(hook(7), n++, 1 == 2)` on a counter `n`: false, with effects. -/
def condFalse : CondExpr Nat := fun n => ⟨0, n + 1, [7]⟩

/-- The condition `(hook(7), n++, 5)` on a counter `n`: true, with effects. -/
def condTrue : CondExpr Nat := fun n => ⟨5, n + 1, [7]⟩

/-- A running machine with counter `0` and an empty trace. -/
def armed : Machine Nat := ⟨0, Status.Armed, []⟩

/-- Code after the call site: it records effect `99`. -/
def after (m : Machine Nat) : Outcome Nat :=
  Outcome.returned Val.void { m with trace := m.trace ++ [Event.effect 99] }

/-! ## Lemmas -/

theorem reporterCalls_append (a b : List Event) :
    reporterCalls (a ++ b) = reporterCalls a ++ reporterCalls b := by
  induction a with
  | nil => rfl
  | cons e es ih => cases e <;> simp [reporterCalls, ih]

theorem reporterCalls_effects (l : List Nat) :
    reporterCalls (l.map Event.effect) = [] := by
  induction l with
  | nil => rfl
  | cons e es ih => simp [reporterCalls, ih]

theorem evaluations_append (a b : List Event) :
    evaluations (a ++ b) = evaluations a + evaluations b := by
  induction a with
  | nil => simp [evaluations]
  | cons e es ih =>
      cases e
      · simp [evaluations, ih]
        omega
      · simp [evaluations, ih]
      · simp [evaluations, ih]

theorem evaluations_effects (l : List Nat) :
    evaluations (l.map Event.effect) = 0 := by
  induction l with
  | nil => rfl
  | cons e es ih => simp [evaluations, ih]

theorem assert_of_disabled {σ : Type} (d : Defines) (site : CallSite) (cond : CondExpr σ)
    (m : Machine σ) (h : buildConfiguration d = BuildConfiguration.Disabled) :
    assert d site cond m = Outcome.returned Val.void m := by
  simp [assert, h, assertReplacement, rescan, eval]

theorem assert_of_minimal {σ : Type} (d : Defines) (site : CallSite) (cond : CondExpr σ)
    (m : Machine σ) (h : buildConfiguration d = BuildConfiguration.MinimalReport) :
    assert d site cond m =
      if (cond m.user).value = 0 then invoke Fn._assert_panic [] (evalArgument cond m)
      else Outcome.returned Val.void (evalArgument cond m) := by
  by_cases hv : (cond m.user).value = 0 <;>
    simp [assert, h, assertReplacement, rescan, eval, declarations, Val.truth, hv]

theorem assert_of_verbose {σ : Type} (d : Defines) (site : CallSite) (cond : CondExpr σ)
    (m : Machine σ) (h : buildConfiguration d = BuildConfiguration.VerboseReport) :
    assert d site cond m =
      if (cond m.user).value = 0 then
        invoke Fn._assert_failure [Val.str (fileField d site), Val.int site.line]
          (evalArgument cond m)
      else Outcome.returned Val.void (evalArgument cond m) := by
  have hl : ((site.line : Int) % 4294967296) = site.line := by
    have := site.line_le
    omega
  by_cases hv : (cond m.user).value = 0 <;>
    cases hf : d.RIOT_FILE_RELATIVE <;>
    simp [assert, h, assertReplacement, rescan, rescanIdent, eval, declarations, Val.truth, hv,
      hf, fileField, convertArg, hl]

/-! ## Claims -/

/-- C1: in a build where `assert` is not disabled, an `assert(cond)` whose
condition evaluates to zero calls the reporter of the build (`_assert_panic`
under MinimalReport, `_assert_failure` under VerboseReport), control does not
come back: whatever code `k` follows the call site is not run, and the run ends
in `Halted`. -/
theorem assert_false_never_returns {σ : Type} (d : Defines) (site : CallSite)
    (cond : CondExpr σ) (m : Machine σ) (k : Machine σ → Outcome σ)
    (hcfg : buildConfiguration d ≠ BuildConfiguration.Disabled)
    (hc : (cond m.user).value = 0) :
    ∃ m1 f args,
      assert d site cond m = Outcome.noReturn m1 ∧
      (assert d site cond m).andThen k = Outcome.noReturn m1 ∧
      m1.status = Status.Halted ∧
      reporterCalls m1.trace = reporterCalls m.trace ++ [(f, args)] ∧
      (buildConfiguration d = BuildConfiguration.MinimalReport → f = Fn._assert_panic) ∧
      (buildConfiguration d = BuildConfiguration.VerboseReport → f = Fn._assert_failure) := by
  cases h : buildConfiguration d with
  | Disabled => exact absurd h hcfg
  | MinimalReport =>
      refine ⟨faultReporter (recordCall Fn._assert_panic [] (evalArgument cond m)),
        Fn._assert_panic, [], ?_, ?_, ?_, ?_, ?_, ?_⟩
      · rw [assert_of_minimal d site cond m h, if_pos hc]
        rfl
      · rw [assert_of_minimal d site cond m h, if_pos hc]
        rfl
      · rfl
      · simp [faultReporter, core_panic, recordCall, evalArgument, reporterCalls_append,
          reporterCalls_effects, reporterCalls]
      · intro _
        rfl
      · intro h2
        cases h2
  | VerboseReport =>
      refine ⟨faultReporter (recordCall Fn._assert_failure
          [Val.str (fileField d site), Val.int site.line] (evalArgument cond m)),
        Fn._assert_failure, [Val.str (fileField d site), Val.int site.line],
        ?_, ?_, ?_, ?_, ?_, ?_⟩
      · rw [assert_of_verbose d site cond m h, if_pos hc]
        rfl
      · rw [assert_of_verbose d site cond m h, if_pos hc]
        rfl
      · rfl
      · simp [faultReporter, core_panic, recordCall, evalArgument, reporterCalls_append,
          reporterCalls_effects, reporterCalls]
      · intro h2
        cases h2
      · intro _
        rfl

/-- C1 at a concrete input: the false condition at `x.c:42` in the minimal build. -/
theorem assert_false_never_returns_witness :
    buildConfiguration minimalBuild ≠ BuildConfiguration.Disabled ∧
    (condFalse armed.user).value = 0 ∧
    ∃ m1 f args,
      assert minimalBuild siteX42 condFalse armed = Outcome.noReturn m1 ∧
      (assert minimalBuild siteX42 condFalse armed).andThen after = Outcome.noReturn m1 ∧
      m1.status = Status.Halted ∧
      reporterCalls m1.trace = reporterCalls armed.trace ++ [(f, args)] ∧
      (buildConfiguration minimalBuild = BuildConfiguration.MinimalReport →
        f = Fn._assert_panic) ∧
      (buildConfiguration minimalBuild = BuildConfiguration.VerboseReport →
        f = Fn._assert_failure) :=
  ⟨by decide, rfl,
    assert_false_never_returns minimalBuild siteX42 condFalse armed after (by decide) rfl⟩

/-- C2: in every build, an `assert(cond)` whose condition evaluates to a
non-zero value returns to the call site and the code `k` after it runs; no
reporter is called, the status is unchanged (an `Armed` machine stays `Armed`),
and the machine differs from the one before only by the evaluation of the
condition itself (not even that under `NDEBUG`). -/
theorem assert_true_falls_through {σ : Type} (d : Defines) (site : CallSite)
    (cond : CondExpr σ) (m : Machine σ) (k : Machine σ → Outcome σ)
    (hc : (cond m.user).value ≠ 0) :
    ∃ m1,
      assert d site cond m = Outcome.returned Val.void m1 ∧
      (assert d site cond m).andThen k = k m1 ∧
      m1.status = m.status ∧
      reporterCalls m1.trace = reporterCalls m.trace ∧
      m1 = (if buildConfiguration d = BuildConfiguration.Disabled then m
            else evalArgument cond m) := by
  cases h : buildConfiguration d with
  | Disabled =>
      refine ⟨m, ?_, ?_, rfl, rfl, ?_⟩
      · rw [assert_of_disabled d site cond m h]
      · rw [assert_of_disabled d site cond m h]
        rfl
      · simp
  | MinimalReport =>
      refine ⟨evalArgument cond m, ?_, ?_, rfl, ?_, ?_⟩
      · rw [assert_of_minimal d site cond m h, if_neg hc]
      · rw [assert_of_minimal d site cond m h, if_neg hc]
        rfl
      · simp [evalArgument, reporterCalls_append, reporterCalls_effects, reporterCalls]
      · simp
  | VerboseReport =>
      refine ⟨evalArgument cond m, ?_, ?_, rfl, ?_, ?_⟩
      · rw [assert_of_verbose d site cond m h, if_neg hc]
      · rw [assert_of_verbose d site cond m h, if_neg hc]
        rfl
      · simp [evalArgument, reporterCalls_append, reporterCalls_effects, reporterCalls]
      · simp

/-- C2 at a concrete input: the true condition at `x.c:42` in the verbose build. -/
theorem assert_true_falls_through_witness :
    (condTrue armed.user).value ≠ 0 ∧
    ∃ m1,
      assert verboseBuild siteX42 condTrue armed = Outcome.returned Val.void m1 ∧
      (assert verboseBuild siteX42 condTrue armed).andThen after = after m1 ∧
      m1.status = armed.status ∧
      reporterCalls m1.trace = reporterCalls armed.trace ∧
      m1 = (if buildConfiguration verboseBuild = BuildConfiguration.Disabled then armed
            else evalArgument condTrue armed) :=
  ⟨by decide, assert_true_falls_through verboseBuild siteX42 condTrue armed after (by decide)⟩

/-- C3: with `NDEBUG` defined, `assert(cond)` is `((void)0)`: the argument does
not occur in the expansion, so for every condition, true or false, with or
without effects, the machine after the statement is the machine before it
(program state, status and trace: no evaluation, no effect, no reporter call),
and the code `k` after the call site runs on it. -/
theorem assert_disabled_is_noop {σ : Type} (d : Defines) (site : CallSite)
    (cond : CondExpr σ) (m : Machine σ) (k : Machine σ → Outcome σ)
    (hN : d.NDEBUG = true) :
    buildConfiguration d = BuildConfiguration.Disabled ∧
    (assertReplacement (buildConfiguration d)).paramCount = 0 ∧
    (assertReplacement (buildConfiguration d)).calls = [] ∧
    assert d site cond m = Outcome.returned Val.void m ∧
    (assert d site cond m).andThen k = k m := by
  have h : buildConfiguration d = BuildConfiguration.Disabled := by
    unfold buildConfiguration doxygenBlock
    split <;> simp [hN]
  refine ⟨h, ?_, ?_, assert_of_disabled d site cond m h, ?_⟩
  · rw [h]
    rfl
  · rw [h]
    rfl
  · rw [assert_of_disabled d site cond m h]
    rfl

/-- C3 at a concrete input: `assert(1 == 2)` with effects, `NDEBUG` defined. -/
theorem assert_disabled_is_noop_witness :
    disabledBuild.NDEBUG = true ∧
    buildConfiguration disabledBuild = BuildConfiguration.Disabled ∧
    (assertReplacement (buildConfiguration disabledBuild)).paramCount = 0 ∧
    (assertReplacement (buildConfiguration disabledBuild)).calls = [] ∧
    assert disabledBuild siteX42 condFalse armed = Outcome.returned Val.void armed ∧
    (assert disabledBuild siteX42 condFalse armed).andThen after = after armed :=
  ⟨rfl, assert_disabled_is_noop disabledBuild siteX42 condFalse armed after rfl⟩

/-- C4: the branch of the header is a function of the two names as they stand
when the conditional at line 68 is read: `NDEBUG` gives Disabled whatever
`DEBUG_ASSERT_VERBOSE` is, `DEBUG_ASSERT_VERBOSE` without `NDEBUG` gives
VerboseReport, neither gives MinimalReport (and unless `DOXYGEN` is defined the
names stand as the build set them).  Each branch declares at most one reporter,
the replacement list calls exactly the declared ones, and the Disabled branch
declares and calls none. -/
theorem buildConfiguration_of_flags (d : Defines) :
    ((doxygenBlock d).NDEBUG = true →
      buildConfiguration d = BuildConfiguration.Disabled) ∧
    ((doxygenBlock d).NDEBUG = false → (doxygenBlock d).DEBUG_ASSERT_VERBOSE = true →
      buildConfiguration d = BuildConfiguration.VerboseReport) ∧
    ((doxygenBlock d).NDEBUG = false → (doxygenBlock d).DEBUG_ASSERT_VERBOSE = false →
      buildConfiguration d = BuildConfiguration.MinimalReport) ∧
    (d.DOXYGEN = false → doxygenBlock d = d) ∧
    (declarations (buildConfiguration d)).length ≤ 1 ∧
    (assertReplacement (buildConfiguration d)).calls =
      (declarations (buildConfiguration d)).map Prototype.fn ∧
    (buildConfiguration d = BuildConfiguration.Disabled →
      declarations (buildConfiguration d) = [] ∧
      (assertReplacement (buildConfiguration d)).calls = []) := by
  refine ⟨?_, ?_, ?_, ?_, ?_, ?_, ?_⟩
  · intro h
    simp [buildConfiguration, h]
  · intro h1 h2
    simp [buildConfiguration, h1, h2]
  · intro h1 h2
    simp [buildConfiguration, h1, h2]
  · intro h
    simp [doxygenBlock, h]
  · cases buildConfiguration d <;> simp [declarations]
  · cases buildConfiguration d <;> rfl
  · intro h
    rw [h]
    exact ⟨rfl, rfl⟩

/-- C5: in the verbose branch, with `RIOT_FILE_RELATIVE` left to the header, a
failing `assert` at line `n` of file `f` adds exactly one reporter call to the
trace, `_assert_failure(f, n)`. -/
theorem verbose_reports_call_site {σ : Type} (d : Defines) (site : CallSite)
    (cond : CondExpr σ) (m : Machine σ)
    (hcfg : buildConfiguration d = BuildConfiguration.VerboseReport)
    (hfile : d.RIOT_FILE_RELATIVE = none)
    (hc : (cond m.user).value = 0) :
    ∃ m1,
      assert d site cond m = Outcome.noReturn m1 ∧
      reporterCalls m1.trace =
        reporterCalls m.trace ++
          [(Fn._assert_failure, [Val.str site.file, Val.int site.line])] := by
  refine ⟨faultReporter (recordCall Fn._assert_failure
    [Val.str site.file, Val.int site.line] (evalArgument cond m)), ?_, ?_⟩
  · rw [assert_of_verbose d site cond m hcfg, if_pos hc]
    simp [invoke, fileField, hfile]
  · simp [faultReporter, core_panic, recordCall, evalArgument, reporterCalls_append,
      reporterCalls_effects, reporterCalls]

/-- C5 at a concrete input: `assert(false)` at line 42 of `x.c`. -/
theorem verbose_reports_call_site_witness :
    buildConfiguration verboseBuild = BuildConfiguration.VerboseReport ∧
    verboseBuild.RIOT_FILE_RELATIVE = none ∧
    (condFalse armed.user).value = 0 ∧
    ∃ m1,
      assert verboseBuild siteX42 condFalse armed = Outcome.noReturn m1 ∧
      reporterCalls m1.trace =
        reporterCalls armed.trace ++
          [(Fn._assert_failure, [Val.str siteX42.file, Val.int siteX42.line])] :=
  ⟨rfl, rfl, rfl, verbose_reports_call_site verboseBuild siteX42 condFalse armed rfl rfl rfl⟩

/-- C6: in the minimal branch a failing `assert` adds exactly one reporter call
to the trace, `_assert_panic()` with no argument; the replacement list does not
mention `_assert_failure`, and the outcome is the same at every call site. -/
theorem minimal_reports_no_location {σ : Type} (d : Defines) (site : CallSite)
    (cond : CondExpr σ) (m : Machine σ)
    (hcfg : buildConfiguration d = BuildConfiguration.MinimalReport)
    (hc : (cond m.user).value = 0) :
    ∃ m1,
      assert d site cond m = Outcome.noReturn m1 ∧
      reporterCalls m1.trace = reporterCalls m.trace ++ [(Fn._assert_panic, [])] ∧
      (assertReplacement (buildConfiguration d)).calls = [Fn._assert_panic] ∧
      ∀ site2 : CallSite, assert d site2 cond m = assert d site cond m := by
  refine ⟨faultReporter (recordCall Fn._assert_panic [] (evalArgument cond m)), ?_, ?_, ?_, ?_⟩
  · rw [assert_of_minimal d site cond m hcfg, if_pos hc]
    rfl
  · simp [faultReporter, core_panic, recordCall, evalArgument, reporterCalls_append,
      reporterCalls_effects, reporterCalls]
  · rw [hcfg]
    rfl
  · intro site2
    rw [assert_of_minimal d site cond m hcfg, assert_of_minimal d site2 cond m hcfg]

/-- C6 at a concrete input: the false condition in the minimal build, seen from
`x.c:42` and from `y.c:7`. -/
theorem minimal_reports_no_location_witness :
    buildConfiguration minimalBuild = BuildConfiguration.MinimalReport ∧
    (condFalse armed.user).value = 0 ∧
    ∃ m1,
      assert minimalBuild siteX42 condFalse armed = Outcome.noReturn m1 ∧
      reporterCalls m1.trace = reporterCalls armed.trace ++ [(Fn._assert_panic, [])] ∧
      (assertReplacement (buildConfiguration minimalBuild)).calls = [Fn._assert_panic] ∧
      ∀ site2 : CallSite,
        assert minimalBuild site2 condFalse armed = assert minimalBuild siteX42 condFalse armed :=
  ⟨rfl, rfl, minimal_reports_no_location minimalBuild siteX42 condFalse armed rfl rfl⟩

/-- C8: in the verbose branch the file argument of `_assert_failure` on a failed
`assert` is the value of `RIOT_FILE_RELATIVE`: the build's string when the
build defines the name, `__FILE__` of the call site otherwise; the line
argument is `__LINE__` either way. -/
theorem verbose_file_is_RIOT_FILE_RELATIVE {σ : Type} (d : Defines) (site : CallSite)
    (cond : CondExpr σ) (m : Machine σ)
    (hcfg : buildConfiguration d = BuildConfiguration.VerboseReport)
    (hc : (cond m.user).value = 0) :
    ∃ m1 file,
      assert d site cond m = Outcome.noReturn m1 ∧
      reporterCalls m1.trace =
        reporterCalls m.trace ++ [(Fn._assert_failure, [Val.str file, Val.int site.line])] ∧
      (∀ s, d.RIOT_FILE_RELATIVE = some s → file = s) ∧
      (d.RIOT_FILE_RELATIVE = none → file = site.file) := by
  refine ⟨faultReporter (recordCall Fn._assert_failure
    [Val.str (fileField d site), Val.int site.line] (evalArgument cond m)),
    fileField d site, ?_, ?_, ?_, ?_⟩
  · rw [assert_of_verbose d site cond m hcfg, if_pos hc]
    rfl
  · simp [faultReporter, core_panic, recordCall, evalArgument, reporterCalls_append,
      reporterCalls_effects, reporterCalls]
  · intro s hs
    simp [fileField, hs]
  · intro hs
    simp [fileField, hs]

/-- C8 at a concrete input: the build defines `RIOT_FILE_RELATIVE` as
`"core/x.c"`, the call site is line 42 of `x.c`. -/
theorem verbose_file_is_RIOT_FILE_RELATIVE_witness :
    buildConfiguration relativeBuild = BuildConfiguration.VerboseReport ∧
    (condFalse armed.user).value = 0 ∧
    ∃ m1 file,
      assert relativeBuild siteX42 condFalse armed = Outcome.noReturn m1 ∧
      reporterCalls m1.trace =
        reporterCalls armed.trace ++
          [(Fn._assert_failure, [Val.str file, Val.int siteX42.line])] ∧
      (∀ s, relativeBuild.RIOT_FILE_RELATIVE = some s → file = s) ∧
      (relativeBuild.RIOT_FILE_RELATIVE = none → file = siteX42.file) :=
  ⟨rfl, rfl, verbose_file_is_RIOT_FILE_RELATIVE relativeBuild siteX42 condFalse armed rfl rfl⟩

/-- C9: the verbose replacement list refers to `RIOT_FILE_RELATIVE` and
`__LINE__` only.  For the failing `assert` at line 42 of `x.c` inside `main`
the single reporter call is `_assert_failure("x.c", 42)`: the name `main` is
not among the arguments. -/
theorem verbose_call_lacks_function :
    siteX42.func = "main" ∧
    assertReplacement (buildConfiguration verboseBuild) =
      CExpr.ternary CExpr.param CExpr.voidZero
        (CExpr.call2 Fn._assert_failure (CExpr.ident Ident.RIOT_FILE_RELATIVE)
          (CExpr.ident Ident.__LINE__)) ∧
    (assert verboseBuild siteX42 condFalse armed).final.map (fun m1 => reporterCalls m1.trace) =
      some [(Fn._assert_failure, [Val.str "x.c", Val.int 42])] ∧
    Val.str siteX42.func ∉ [Val.str "x.c", Val.int 42] := by
  refine ⟨rfl, rfl, ?_, by decide⟩
  rw [assert_of_verbose verboseBuild siteX42 condFalse armed rfl]
  rfl

/-- C10: in a build where `assert` is not disabled the parameter occurs once in
the replacement list and the argument is evaluated exactly once, whatever its
value; when the value is zero the reporter is invoked on the machine in which
that evaluation has taken place, so the trace shows the evaluation and its
effects before the call.  In a disabled build the same statement evaluates the
argument zero times. -/
theorem assert_evaluates_cond_once {σ : Type} (d : Defines) (site : CallSite)
    (cond : CondExpr σ) (m : Machine σ)
    (hcfg : buildConfiguration d ≠ BuildConfiguration.Disabled) :
    (assertReplacement (buildConfiguration d)).paramCount = 1 ∧
    (∃ m1,
      (assert d site cond m).final = some m1 ∧
      evaluations m1.trace = evaluations m.trace + 1 ∧
      m1.user = (cond m.user).post ∧
      ((cond m.user).value ≠ 0 → m1 = evalArgument cond m) ∧
      ((cond m.user).value = 0 → ∃ f args,
        assert d site cond m = invoke f args (evalArgument cond m) ∧
        m1.trace =
          m.trace ++ (Event.condEvaluated :: (cond m.user).effects.map Event.effect) ++
            [Event.call f args])) ∧
    (∀ d0 : Defines, buildConfiguration d0 = BuildConfiguration.Disabled →
      (assertReplacement (buildConfiguration d0)).paramCount = 0 ∧
      ∃ m0, (assert d0 site cond m).final = some m0 ∧
        evaluations m0.trace = evaluations m.trace) := by
  refine ⟨?_, ?_, ?_⟩
  · cases h : buildConfiguration d with
    | Disabled => exact absurd h hcfg
    | MinimalReport => rfl
    | VerboseReport => rfl
  · cases h : buildConfiguration d with
    | Disabled => exact absurd h hcfg
    | MinimalReport =>
        rw [assert_of_minimal d site cond m h]
        by_cases hc : (cond m.user).value = 0
        · refine ⟨faultReporter (recordCall Fn._assert_panic [] (evalArgument cond m)),
            ?_, ?_, rfl, fun hne => absurd hc hne, fun _ => ⟨Fn._assert_panic, [], ?_, ?_⟩⟩
          · rw [if_pos hc]
            rfl
          · simp [faultReporter, core_panic, recordCall, evalArgument, evaluations_append,
              evaluations_effects, evaluations]
          · rw [if_pos hc]
          · simp [faultReporter, core_panic, recordCall, evalArgument]
        · refine ⟨evalArgument cond m, ?_, ?_, rfl, fun _ => rfl, fun h0 => absurd h0 hc⟩
          · rw [if_neg hc]
            rfl
          · simp [evalArgument, evaluations_append, evaluations_effects, evaluations]
    | VerboseReport =>
        rw [assert_of_verbose d site cond m h]
        by_cases hc : (cond m.user).value = 0
        · refine ⟨faultReporter (recordCall Fn._assert_failure
              [Val.str (fileField d site), Val.int site.line] (evalArgument cond m)),
            ?_, ?_, rfl, fun hne => absurd hc hne,
            fun _ => ⟨Fn._assert_failure,
              [Val.str (fileField d site), Val.int site.line], ?_, ?_⟩⟩
          · rw [if_pos hc]
            rfl
          · simp [faultReporter, core_panic, recordCall, evalArgument, evaluations_append,
              evaluations_effects, evaluations]
          · rw [if_pos hc]
          · simp [faultReporter, core_panic, recordCall, evalArgument]
        · refine ⟨evalArgument cond m, ?_, ?_, rfl, fun _ => rfl, fun h0 => absurd h0 hc⟩
          · rw [if_neg hc]
            rfl
          · simp [evalArgument, evaluations_append, evaluations_effects, evaluations]
  · intro d0 h0
    refine ⟨?_, m, ?_, rfl⟩
    · rw [h0]
      rfl
    · rw [assert_of_disabled d0 site cond m h0]
      rfl

/-- C10 at a concrete input: the false condition with effects at `x.c:42` in
the verbose build. -/
theorem assert_evaluates_cond_once_witness :
    buildConfiguration verboseBuild ≠ BuildConfiguration.Disabled ∧
    (assertReplacement (buildConfiguration verboseBuild)).paramCount = 1 ∧
    (∃ m1,
      (assert verboseBuild siteX42 condFalse armed).final = some m1 ∧
      evaluations m1.trace = evaluations armed.trace + 1 ∧
      m1.user = (condFalse armed.user).post ∧
      ((condFalse armed.user).value ≠ 0 → m1 = evalArgument condFalse armed) ∧
      ((condFalse armed.user).value = 0 → ∃ f args,
        assert verboseBuild siteX42 condFalse armed =
          invoke f args (evalArgument condFalse armed) ∧
        m1.trace =
          armed.trace ++
            (Event.condEvaluated :: (condFalse armed.user).effects.map Event.effect) ++
            [Event.call f args])) ∧
    (∀ d0 : Defines, buildConfiguration d0 = BuildConfiguration.Disabled →
      (assertReplacement (buildConfiguration d0)).paramCount = 0 ∧
      ∃ m0, (assert d0 siteX42 condFalse armed).final = some m0 ∧
        evaluations m0.trace = evaluations armed.trace) :=
  ⟨by decide, assert_evaluates_cond_once verboseBuild siteX42 condFalse armed (by decide)⟩

end RiotAssert
